import Mathlib

/-!
Verification development for the GraphRAG memory layer of the open-canvas
repository (packages/shared/src/graphdb.ts, graphrag-write.ts,
apps/agents/src/lib/graphrag-context.ts).

The repository ships two concatenated variants of the write path in
graphrag-write.ts; both are embedded below, the first as namespace `V1`
(writeToGraph and its upsert helpers), the second as namespace `V2`
(extractAndWriteToGraph, extractFromMessages, writeExtractionToGraph,
detectAndRecordContradictions, detectSimpleContradiction).

Modelling conventions:
  - Cypher MERGE on a node or relationship pattern matches an element whose
    properties equal exactly the properties written in the pattern and
    creates it otherwise; properties assigned by SET or ON CREATE SET are
    not part of the match key.
  - datetime() is modelled by a logical clock on the graph state: every
    executed query reads the clock as the current time and increments it.
  - randomUUID() is modelled by a fresh-name counter on the state.
  - The JS regular expressions of the extractor are embedded as explicit
    scanners with the semantics of RegExp.exec on a /g pattern: repeated
    leftmost matching from the previous match end. \s is modelled as ASCII
    whitespace (Char.isWhitespace), . as any character other than a line
    break, \w as [A-Za-z0-9_].
-/

namespace OC

/-- Model of the JS \s character class (ASCII part). -/
def isSpaceChar (c : Char) : Bool := c.isWhitespace

/-- Model of the JS \w character class. -/
def isWordChar (c : Char) : Bool := c.isAlphanum || c = '_'

/-- Model of the JS . metacharacter (anything but a line terminator). -/
def isDotChar (c : Char) : Bool := !(c = '\n' || c = '\r')

/-- String.prototype.toLowerCase, written over the character list so that
it reduces in the kernel (String.toLower does not). -/
def toLowerStr (s : String) : String := String.mk (s.toList.map Char.toLower)

/-- String.prototype.trim (ASCII whitespace), written over the character
list so that it reduces in the kernel. -/
def trimStr (s : String) : String :=
  String.mk (((s.toList.dropWhile isSpaceChar).reverse.dropWhile
    isSpaceChar).reverse)

/-- String.prototype.slice(0, n), written over the character list so that
it reduces in the kernel. -/
def takeStr (s : String) (n : Nat) : String := String.mk (s.toList.take n)

/-- Array.prototype.join, written by structural recursion so that it
reduces in the kernel. -/
def joinSep (sep : String) : List String → String
  | [] => ""
  | [x] => x
  | x :: rest => x ++ sep ++ joinSep sep rest

/-- The COMMON_WORDS stop-word set of graphrag-write.ts (second variant,
lines 391-448). -/
def COMMON_WORDS : List String :=
  ["the", "this", "that", "with", "from", "have", "been", "will", "would",
   "could", "should", "about", "what", "when", "where", "which", "there",
   "their", "here", "just", "also", "then", "than", "more", "some", "other",
   "into", "only", "very", "well", "much", "each", "every", "both", "after",
   "before", "between", "through", "during", "without", "within", "along",
   "among", "however", "although", "because", "since", "while", "please",
   "thanks", "thank", "hello", "sure", "okay", "yes", "not"]

/-- Maximal runs of non-whitespace characters of a string: the non-empty
entries of the JS split on /\s+/ (empty entries of that split are removed
by the length filter wherever the source uses it). -/
def wordsOf (s : String) : List String :=
  ((s.toList.splitOnP isSpaceChar).filter (fun w => !w.isEmpty)).map
    (fun w => String.mk w)

/-- Model of JS String.prototype.includes: substring containment. -/
def strIncl (hay pat : String) : Bool :=
  haystackIncl hay.toList pat.toList
where
  haystackIncl : List Char → List Char → Bool
    | _, [] => true
    | [], _ :: _ => false
    | c :: rest, pat =>
        if pat.isPrefixOf (c :: rest) then true else haystackIncl rest pat

/-- The fixed opposing-keyword table of detectSimpleContradiction
(graphrag-write.ts lines 675-686). -/
def opposingPairs : List (String × String) :=
  [("formal", "casual"), ("formal", "informal"), ("verbose", "concise"),
   ("detailed", "brief"), ("simple", "complex"), ("short", "long"),
   ("technical", "simple"), ("professional", "casual"),
   ("serious", "humorous"), ("passive", "active")]

/-- Translation of detectSimpleContradiction (graphrag-write.ts lines
653-698): the negation-overlap test runs only when the new rule is negated;
the opposing-pair test runs on the lowercased texts. -/
def detectSimpleContradiction (newRule existingRule newTemporalMarker : String) :
    Bool :=
  let lower1 := toLowerStr newRule
  let lower2 := toLowerStr existingRule
  let negatedHit :=
    if newTemporalMarker = "negated" then
      let words1 := (wordsOf lower1).filter
        (fun w => w.length > 3 && !(COMMON_WORDS.contains w))
      let words2 := (wordsOf lower2).filter
        (fun w => w.length > 3 && !(COMMON_WORDS.contains w))
      let overlap := words1.filter (fun w => words2.contains w)
      overlap.length > 0
    else false
  if negatedHit then true
  else
    opposingPairs.any (fun p =>
      (strIncl lower1 p.1 && strIncl lower2 p.2) ||
      (strIncl lower1 p.2 && strIncl lower2 p.1))

-- ---------------------------------------------------------------------------
-- Extractor (graphrag-write.ts second variant, extractFromMessages,
-- lines 307-389)
-- ---------------------------------------------------------------------------

/-- A piece of a preference-pattern cue: a literal (matched
case-insensitively, an inner space standing for a literal space) or a
one-or-more whitespace run. -/
inductive Tok where
  | lit (s : String)
  | ws
deriving DecidableEq

/-- Case-insensitive literal match at the head of the input; returns the
rest of the input. -/
def matchLitCI : List Char → List Char → Option (List Char)
  | [], cs => some cs
  | _ :: _, [] => none
  | l :: ls, c :: cs => if l.toLower = c.toLower then matchLitCI ls cs else none

/-- Match a token sequence at the head of the input (whitespace runs are
maximal-munch: every cue literal begins with a non-space character, so no
backtracking into an inner run can help). -/
def matchToks : List Tok → List Char → Option (List Char)
  | [], cs => some cs
  | Tok.lit s :: ts, cs => (matchLitCI s.toList cs).bind (matchToks ts)
  | Tok.ws :: ts, cs =>
      match cs with
      | [] => none
      | c :: rest =>
          if isSpaceChar c then matchToks ts (rest.dropWhile isSpaceChar)
          else none

/-- Lazy body and terminator of the preference patterns, "(.+?)(?:\.|$)":
consume at least one non-line-break character up to and including the first
period, or up to the end of the input. Returns the number of characters
consumed. -/
def bodyTerm (cs : List Char) : Option Nat :=
  match cs with
  | [] => none
  | c :: rest => if isDotChar c then go 1 rest else none
where
  go (k : Nat) : List Char → Option Nat
    | [] => some k
    | c :: rest =>
        if c = '.' then some (k + 1)
        else if isDotChar c then go (k + 1) rest
        else none

/-- The trailing "\s+(.+?)(?:\.|$)" of every preference pattern. The
whitespace run is greedy; when the input ends right after the run the
engine backtracks one space into the lazy body (the only position where
backtracking out of the greedy run can succeed, since a line break after
the run blocks the body at every split). Returns the number of characters
consumed. -/
def wsBody (cs : List Char) : Option Nat :=
  match cs with
  | [] => none
  | c :: _ =>
      if isSpaceChar c then
        let m := (cs.takeWhile isSpaceChar).length
        match bodyTerm (cs.drop m) with
        | some k => some (m + k)
        | none => if (cs.drop m).isEmpty && m ≥ 2 then some m else none
      else none

/-- Match one preference alternative (its cue tokens, then the whitespace
and lazy body) at the head of the input; returns the length of match[0]. -/
def matchAltAt (alt : List Tok) (cs : List Char) : Option Nat :=
  match matchToks alt cs with
  | none => none
  | some rest => (wsBody rest).map (fun n => (cs.length - rest.length) + n)

/-- Try the alternatives of one preference pattern in order at the head of
the input. -/
def matchPrefAt (alts : List (List Tok)) (cs : List Char) : Option Nat :=
  match alts with
  | [] => none
  | a :: more =>
      match matchAltAt a cs with
      | some n => some n
      | none => matchPrefAt more cs

/-- RegExp.exec with the /g flag: repeated leftmost matching, resuming at
the end of each match. The fuel starts at the input length, which bounds
the number of scanning steps. -/
def scanPref (alts : List (List Tok)) : Nat → List Char → List String
  | 0, _ => []
  | _, [] => []
  | fuel + 1, c :: rest =>
      match matchPrefAt alts (c :: rest) with
      | some n =>
          String.mk ((c :: rest).take n) :: scanPref alts fuel ((c :: rest).drop n)
      | none => scanPref alts fuel rest

/-- Pattern /(?:I\s+(?:prefer|like|want|need)\s+)(.+?)(?:\.|$)/gi. -/
def pref1 : List (List Tok) :=
  [[Tok.lit "I", Tok.ws, Tok.lit "prefer"], [Tok.lit "I", Tok.ws, Tok.lit "like"],
   [Tok.lit "I", Tok.ws, Tok.lit "want"], [Tok.lit "I", Tok.ws, Tok.lit "need"]]

/-- Pattern /(?:(?:always|never)\s+)(.+?)(?:\.|$)/gi. -/
def pref2 : List (List Tok) := [[Tok.lit "always"], [Tok.lit "never"]]

/-- Pattern /(?:(?:use|avoid|don't use|do not use)\s+)(.+?)(?:\.|$)/gi. -/
def pref3 : List (List Tok) :=
  [[Tok.lit "use"], [Tok.lit "avoid"], [Tok.lit "don't use"],
   [Tok.lit "do not use"]]

/-- Pattern /(?:(?:make it|keep it|write in)\s+)(.+?)(?:\.|$)/gi. -/
def pref4 : List (List Tok) :=
  [[Tok.lit "make it"], [Tok.lit "keep it"], [Tok.lit "write in"]]

/-- The four preference patterns in source order. -/
def prefPatterns : List (List (List Tok)) := [pref1, pref2, pref3, pref4]

/-- All preference-phrase matches of one turn text, already trimmed
(the source trims match[0] before the length check). -/
def preferenceCandidatesOf (content : String) : List String :=
  prefPatterns.flatMap (fun p =>
    (scanPref p content.toList.length content.toList).map trimStr)

/-- Case-insensitive whole-word search, the /\b(...)\b/i test of the
temporal-marker cues. Every cue begins and ends with a letter, so the
boundary holds exactly when the neighbouring character is absent or a
non-word character. -/
def hasWordCI (phrase text : String) : Bool :=
  go none text.toList
where
  hit (cs : List Char) : Bool :=
    match matchLitCI phrase.toList cs with
    | none => false
    | some rest =>
        match rest.head? with
        | none => true
        | some c => !isWordChar c
  go (prev : Option Char) : List Char → Bool
    | [] => false
    | c :: rest =>
        ((match prev with | none => true | some p => !isWordChar p) &&
          hit (c :: rest)) ||
        go (some c) rest

/-- Negation cues of graphrag-write.ts line 335. -/
def negationCues : List String :=
  ["don't", "never", "avoid", "stop", "no longer", "not anymore"]

/-- Retrospective cues of graphrag-write.ts line 340. -/
def pastCues : List String := ["used to", "previously", "before"]

/-- Temporal marker assignment for one matched rule text (lines 333-342). -/
def temporalMarkerOf (ruleText : String) : String :=
  if negationCues.any (fun cue => hasWordCI cue ruleText) then "negated"
  else if pastCues.any (fun cue => hasWordCI cue ruleText) then "past"
  else "current"

/-- graphrag-types.ts ExtractedStyleRule (confidence and strict are
optional fields). -/
structure ExtractedStyleRule where
  rule : String
  scope : String
  temporalMarker : String
  confidence : Option ℚ
  strict : Option Bool
deriving DecidableEq

/-- The style rules extracted from one turn text: the preference-phrase
matches whose trimmed length passes the band check of line 331
(ruleText.length > 10 && ruleText.length < 200). -/
def styleRulesOfContent (content : String) : List ExtractedStyleRule :=
  (preferenceCandidatesOf content).filterMap (fun ruleText =>
    if ruleText.length > 10 && ruleText.length < 200 then
      some { rule := ruleText, scope := "global",
             temporalMarker := temporalMarkerOf ruleText,
             confidence := some (7 / 10), strict := none }
    else none)

/-- Match "[A-Z][a-z]+" (one upper-case letter, then a maximal non-empty
run of lower-case letters) at the head of the input; returns its length. -/
def matchCapWord (cs : List Char) : Option Nat :=
  match cs with
  | [] => none
  | c :: rest =>
      if c.isUpper then
        let low := (rest.takeWhile Char.isLower).length
        if low ≥ 1 then some (1 + low) else none
      else none

/-- The greedy extension steps "(?:\s+[A-Z][a-z]+)*": the consumed length of
each successive step. -/
def capExts : Nat → List Char → List Nat
  | 0, _ => []
  | fuel + 1, cs =>
      let sp := (cs.takeWhile isSpaceChar).length
      if sp = 0 then []
      else
        match matchCapWord (cs.drop sp) with
        | none => []
        | some w => (sp + w) :: capExts fuel (cs.drop (sp + w))

/-- Does the trailing word boundary \b hold after `n` consumed characters? -/
def boundaryAfter (cs : List Char) (n : Nat) : Bool :=
  match (cs.drop n).head? with
  | none => true
  | some c => !isWordChar c

/-- Match the proper-noun pattern body "[A-Z][a-z]+(?:\s+[A-Z][a-z]+)*\b" at
the head of the input (the leading \b is the caller's concern). The star is
greedy; if the boundary fails at the greedy end, the engine drops the last
extension step, after which the next character is the whitespace of that
step and the boundary holds; with no step to drop the match fails (giving
back lower-case letters only moves the boundary between two word
characters). -/
def matchCapRunAt (cs : List Char) : Option Nat :=
  match matchCapWord cs with
  | none => none
  | some e0 =>
      let ends := (capExts cs.length (cs.drop e0)).scanl (· + ·) e0
      match ends.reverse with
      | [] => none
      | last :: restRev =>
          if boundaryAfter cs last then some last
          else
            match restRev with
            | [] => none
            | prev :: _ => some prev

/-- /g scan of the proper-noun pattern /\b([A-Z][a-z]+(?:\s+[A-Z][a-z]+)*)\b/g;
`prev` is the character before the current position, for the leading \b. -/
def scanCap : Nat → Option Char → List Char → List String
  | 0, _, _ => []
  | _, _, [] => []
  | fuel + 1, prev, c :: rest =>
      if (match prev with | none => true | some p => !isWordChar p) then
        match matchCapRunAt (c :: rest) with
        | some n =>
            let t := (c :: rest).take n
            String.mk t :: scanCap fuel t.getLast? ((c :: rest).drop n)
        | none => scanCap fuel (some c) rest
      else scanCap fuel (some c) rest

/-- /g scan of /"([^"]+)"/g (and, with a backquote, of the backtick
pattern): each match is the non-empty span between a pair of quotes, and
scanning resumes after the closing quote. An empty pair leaves its second
quote available as the opener of a later match. -/
def scanQuoted (q : Char) : Nat → List Char → List String
  | 0, _ => []
  | _, [] => []
  | fuel + 1, c :: rest =>
      if c = q then
        let inside := rest.takeWhile (fun x => x ≠ q)
        match rest.drop inside.length with
        | [] => []
        | _ :: rest2 =>
            if inside.isEmpty then scanQuoted q fuel rest
            else String.mk inside :: scanQuoted q fuel rest2
      else scanQuoted q fuel rest

/-- The backtick character, written by code as U+0060. -/
def backquoteChar : Char := '\x60'

/-- The entity candidates of one turn text (graphrag-write.ts lines
354-374): proper-noun runs, double-quoted spans and backtick spans, each
trimmed, kept when the length is in (2, 100) and the lowercased name is
not a stop-word, and lowercased. -/
def entityCandidatesOf (content : String) : List String :=
  let cs := content.toList
  let raw := scanCap cs.length none cs ++ scanQuoted '"' cs.length cs ++
    scanQuoted backquoteChar cs.length cs
  raw.filterMap (fun nm =>
    let name := trimStr nm
    if name.length > 2 && name.length < 100 &&
        !(COMMON_WORDS.contains (toLowerStr name)) then
      some (toLowerStr name)
    else none)

/-- One conversation turn. -/
structure Msg where
  role : String
  content : String
deriving DecidableEq

/-- graphrag-write.ts WriteToGraphParams (second variant, lines 261-267). -/
structure WriteToGraphParams where
  userId : String
  sessionId : String
  artifactId : Option String
  messages : List Msg
  artifactContent : Option String
deriving DecidableEq

/-- graphrag-types.ts ExtractedEntity (the type field is always the
literal string Concept here). -/
structure ExtractedEntity where
  name : String
  type : String
deriving DecidableEq

/-- graphrag-types.ts ExtractedRelation. -/
structure ExtractedRelation where
  source : String
  target : String
  type : String
deriving DecidableEq

/-- graphrag-types.ts ExtractionResult. -/
structure ExtractionResult where
  entities : List ExtractedEntity
  relations : List ExtractedRelation
  styleRules : List ExtractedStyleRule
  rawSnippet : String
deriving DecidableEq

/-- Deduplication of entities by name keeping first-insertion order: the
JS Map of lines 378-381 (an overwrite keeps the first key position, and
every record of a given name is identical). -/
def dedupByName (l : List ExtractedEntity) : List ExtractedEntity :=
  go [] l
where
  go (seen : List String) : List ExtractedEntity → List ExtractedEntity
    | [] => []
    | e :: rest =>
        if seen.contains e.name then go seen rest
        else e :: go (e.name :: seen) rest

/-- Translation of extractFromMessages (lines 307-389). The source loop
skips every turn whose role is neither human nor user with `continue`,
which is the filter below; each kept turn contributes its first 200
characters to the snippet list, its preference-phrase style rules and its
entity candidates; relations are never produced. -/
def extractFromMessages (params : WriteToGraphParams) : ExtractionResult :=
  let msgs := params.messages.filter (fun m => m.role = "human" || m.role = "user")
  let snippets := msgs.map (fun m => takeStr m.content 200)
  let styleRules := msgs.flatMap (fun m => styleRulesOfContent m.content)
  let entities := msgs.flatMap (fun m =>
    (entityCandidatesOf m.content).map (fun n => ExtractedEntity.mk n "Concept"))
  { entities := dedupByName entities, relations := [], styleRules := styleRules,
    rawSnippet := takeStr (joinSep " | " snippets) 500 }

-- ---------------------------------------------------------------------------
-- GraphRAG mode (graphdb.ts line 11)
-- ---------------------------------------------------------------------------

/-- The three degradation modes; getGraphRAGMode reads the value once from
the environment, so it is a parameter of every operation below. -/
inductive GraphRAGMode where
  | OFF
  | OPTIONAL
  | REQUIRED
deriving DecidableEq

namespace V2

/-- StyleRule node of the second write-path variant. pendingConfirmation is
written only by the strict-override branch; an absent property is modelled
as false. -/
structure Rule where
  ruleId : String
  rule : String
  scope : String
  temporalMarker : String
  since : Nat
  active : Bool
  confidence : ℚ
  strict : Bool
  pendingConfirmation : Bool
deriving DecidableEq

/-- Extraction node of the second write-path variant. -/
structure Extraction where
  extractionId : String
  createdAt : Nat
  method : String
  rawSnippet : String
deriving DecidableEq

/-- The relationships the second write-path variant creates. Each
constructor carries exactly the properties its MERGE pattern or SET clause
writes. -/
inductive Edge where
  | started (userId sessionId : String)
  | contains (sessionId artifactId : String)
  | createdArtifact (userId artifactId : String)
  | extractedFrom (extractionId sessionId : String)
  | extractedFromArtifact (extractionId artifactId : String)
  | createdConcept (extractionId name : String)
  | createdRule (extractionId ruleId : String)
  | mentions (artifactId name : String)
  | relatedTo (source target typ extractionId : String)
  | prefers (userId ruleId : String) (since : Nat) (scope temporalMarker : String)
  | contradicts (newRuleId oldRuleId reason : String) (createdAt : Nat)
      (extractionId strategy : String)
deriving DecidableEq

/-- The graph reached by the second write-path variant. Sessions,
artifacts and concepts carry their updatedAt property (a concept created
by the relation query carries none). The clock models datetime(), the
fresh counter models randomUUID(). -/
structure St where
  clock : Nat
  fresh : Nat
  users : List String
  sessions : List (String × Nat)
  artifacts : List (String × Nat)
  extractions : List Extraction
  concepts : List (String × Option Nat)
  styleRules : List Rule
  edges : List Edge
deriving DecidableEq

/-- The empty graph. -/
def empty : St :=
  { clock := 0, fresh := 0, users := [], sessions := [], artifacts := [],
    extractions := [], concepts := [], styleRules := [], edges := [] }

/-- MERGE of a relationship whose pattern lists all its properties: create
it only when no identical relationship exists. -/
def addEdge (edges : List Edge) (e : Edge) : List Edge :=
  if e ∈ edges then edges else edges ++ [e]

/-- One query execution advances the datetime() clock. -/
def tick (st : St) : St := { st with clock := st.clock + 1 }

/-- randomUUID() as a fresh-name supply. -/
def freshUUID (st : St) : String × St :=
  ("uuid-" ++ toString st.fresh, { st with fresh := st.fresh + 1 })

/-- MERGE (u:User {userId: $userId})  (ensureSessionArtifactNodes,
lines 707-709). -/
def qEnsureUser (userId : String) (st : St) : St :=
  tick (if userId ∈ st.users then st
        else { st with users := st.users ++ [userId] })

/-- MERGE (s:Session {sessionId}) SET s.updatedAt = datetime() WITH s
MATCH (u:User {userId}) MERGE (u)-[:STARTED]->(s)  (lines 712-719). The
STARTED merge runs only when the user node matches. -/
def qEnsureSession (sessionId userId : String) (st : St) : St :=
  let now := st.clock
  let sessions :=
    if st.sessions.any (fun p => p.1 = sessionId) then
      st.sessions.map (fun p => if p.1 = sessionId then (p.1, now) else p)
    else st.sessions ++ [(sessionId, now)]
  let st := { st with sessions := sessions }
  let st : St :=
    if st.users.contains userId then
      { st with edges := addEdge st.edges (Edge.started userId sessionId) }
    else st
  tick st

/-- MERGE (a:Artifact {artifactId}) SET a.updatedAt = datetime() WITH a
MATCH (s:Session {sessionId}) MERGE (s)-[:CONTAINS]->(a) WITH a
MATCH (u:User {userId}) MERGE (u)-[:CREATED]->(a)  (lines 722-737). Each
failed MATCH empties the row stream and cuts the rest of the query. -/
def qEnsureArtifact (artifactId sessionId userId : String) (st : St) : St :=
  let now := st.clock
  let artifacts :=
    if st.artifacts.any (fun p => p.1 = artifactId) then
      st.artifacts.map (fun p => if p.1 = artifactId then (p.1, now) else p)
    else st.artifacts ++ [(artifactId, now)]
  let st := { st with artifacts := artifacts }
  let st :=
    if st.sessions.any (fun p => p.1 = sessionId) then
      let st := { st with edges := addEdge st.edges (Edge.contains sessionId artifactId) }
      if userId ∈ st.users then
        { st with edges := addEdge st.edges (Edge.createdArtifact userId artifactId) }
      else st
    else st
  tick st

/-- Translation of ensureSessionArtifactNodes (lines 703-739). -/
def ensureSessionArtifactNodes (params : WriteToGraphParams) (st : St) : St :=
  let st := qEnsureUser params.userId st
  let st := qEnsureSession params.sessionId params.userId st
  match params.artifactId with
  | some a => qEnsureArtifact a params.sessionId params.userId st
  | none => st

/-- MERGE (e:Extraction {extractionId}) SET e.createdAt = datetime(),
e.method = $method, e.rawSnippet = $rawSnippet  (lines 460-470, method is
the literal "rule", the snippet is sliced to 500). -/
def qExtraction (extractionId rawSnippet : String) (st : St) : St :=
  let now := st.clock
  let node : Extraction :=
    { extractionId := extractionId, createdAt := now, method := "rule",
      rawSnippet := takeStr rawSnippet 500 }
  let extractions :=
    if st.extractions.any (fun e => e.extractionId = extractionId) then
      st.extractions.map (fun e =>
        if e.extractionId = extractionId then node else e)
    else st.extractions ++ [node]
  tick { st with extractions := extractions }

/-- MATCH (e:Extraction {extractionId}) MATCH (s:Session {sessionId})
MERGE (e)-[:EXTRACTED_FROM]->(s)  (lines 473-478). -/
def qLinkSession (extractionId sessionId : String) (st : St) : St :=
  let st :=
    if st.extractions.any (fun e => e.extractionId = extractionId) &&
        st.sessions.any (fun p => p.1 = sessionId) then
      { st with edges := addEdge st.edges (Edge.extractedFrom extractionId sessionId) }
    else st
  tick st

/-- MATCH (e:Extraction {extractionId}) MERGE (a:Artifact {artifactId})
MERGE (e)-[:EXTRACTED_FROM_ARTIFACT]->(a)  (lines 482-487). -/
def qLinkArtifact (extractionId artifactId : String) (st : St) : St :=
  let now := st.clock
  let st :=
    if st.extractions.any (fun e => e.extractionId = extractionId) then
      let artifacts :=
        if st.artifacts.any (fun p => p.1 = artifactId) then st.artifacts
        else st.artifacts ++ [(artifactId, now)]
      { st with artifacts := artifacts,
                edges := addEdge st.edges
                  (Edge.extractedFromArtifact extractionId artifactId) }
    else st
  tick st

/-- MERGE (c:Concept {name}) SET c.updatedAt = datetime() WITH c
MATCH (e:Extraction {extractionId}) MERGE (e)-[:CREATED]->(c)
(lines 492-499). -/
def qUpsertConcept (name extractionId : String) (st : St) : St :=
  let now := st.clock
  let concepts :=
    if st.concepts.any (fun p => p.1 = name) then
      st.concepts.map (fun p => if p.1 = name then (p.1, some now) else p)
    else st.concepts ++ [(name, some now)]
  let st := { st with concepts := concepts }
  let st :=
    if st.extractions.any (fun e => e.extractionId = extractionId) then
      { st with edges := addEdge st.edges (Edge.createdConcept extractionId name) }
    else st
  tick st

/-- MATCH (a:Artifact {artifactId}) MATCH (c:Concept {name})
MERGE (a)-[:MENTIONS]->(c)  (lines 503-508). -/
def qMentions (artifactId name : String) (st : St) : St :=
  let st :=
    if st.artifacts.any (fun p => p.1 = artifactId) &&
        st.concepts.any (fun p => p.1 = name) then
      { st with edges := addEdge st.edges (Edge.mentions artifactId name) }
    else st
  tick st

/-- MERGE (s:Concept {name: $source}) MERGE (t:Concept {name: $target})
MERGE (s)-[r:RELATED_TO]->(t) SET r.type = $type, r.extractionId =
$extractionId  (lines 513-525): the relationship is keyed on its endpoints
alone, type and extractionId are overwritten. -/
def qRelation (source target typ extractionId : String) (st : St) : St :=
  let addConcept (cs : List (String × Option Nat)) (n : String) :=
    if cs.any (fun p => p.1 = n) then cs else cs ++ [(n, none)]
  let st := { st with concepts := addConcept (addConcept st.concepts source) target }
  let edges :=
    if st.edges.any (fun e =>
        match e with
        | Edge.relatedTo s t _ _ => s = source && t = target
        | _ => false) then
      st.edges.map (fun e =>
        match e with
        | Edge.relatedTo s t _ _ =>
            if s = source && t = target then Edge.relatedTo s t typ extractionId
            else e
        | _ => e)
    else st.edges ++ [Edge.relatedTo source target typ extractionId]
  tick { st with edges := edges }

/-- A row of the existing-active-rules query of
detectAndRecordContradictions (lines 585-589). -/
structure Row where
  ruleId : String
  rule : String
  strict : Bool
  temporalMarker : String
deriving DecidableEq

/-- MATCH (u:User {userId})-[:PREFERS]->(sr:StyleRule {scope, active: true})
RETURN sr.ruleId, sr.rule, sr.strict, sr.temporalMarker: one row per
matching PREFERS relationship. -/
def existingActiveRulesQ (userId scope : String) (st : St) : List Row :=
  if userId ∈ st.users then
    st.edges.filterMap (fun e =>
      match e with
      | Edge.prefers u r _ _ _ =>
          if u = userId then
            (st.styleRules.find? (fun sr => sr.ruleId = r)).bind (fun sr =>
              if sr.scope = scope && sr.active then
                some { ruleId := sr.ruleId, rule := sr.rule,
                       strict := sr.strict, temporalMarker := sr.temporalMarker }
              else none)
          else none
      | _ => none)
  else []

/-- MATCH both rules, MERGE (new)-[:CONTRADICTS {reason, createdAt,
extractionId, strategy}]->(old)  (lines 609-625). -/
def qContradicts (newRuleId oldRuleId newText oldText extractionId strategy :
    String) (st : St) : St :=
  let now := st.clock
  let reason := "New rule \"" ++ newText ++ "\" contradicts existing \"" ++
    oldText ++ "\""
  let e := Edge.contradicts newRuleId oldRuleId reason now extractionId strategy
  let st :=
    if st.styleRules.any (fun r => r.ruleId = newRuleId) &&
        st.styleRules.any (fun r => r.ruleId = oldRuleId) then
      { st with edges := addEdge st.edges e }
    else st
  tick st

/-- MATCH (sr:StyleRule {ruleId}) SET sr.active = false,
sr.pendingConfirmation = true  (lines 631-634). -/
def qMarkPending (ruleId : String) (st : St) : St :=
  tick { st with styleRules := st.styleRules.map (fun r =>
    if r.ruleId = ruleId then { r with active := false, pendingConfirmation := true }
    else r) }

/-- MATCH (sr:StyleRule {ruleId}) SET sr.active = false,
sr.temporalMarker = 'past'  (lines 638-641). -/
def qDeactivate (ruleId : String) (st : St) : St :=
  tick { st with styleRules := st.styleRules.map (fun r =>
    if r.ruleId = ruleId then { r with active := false, temporalMarker := "past" }
    else r) }

/-- The loop of detectAndRecordContradictions (lines 593-646): for each
record of the existing-active-rules result, read rule text, rule id and
strict flag, test detectSimpleContradiction, and on a hit merge the
CONTRADICTS relationship and apply the resolution strategy — the strict
guard (skipped when the strategy is user-confirmation), else the
most-recent-wins deactivation of the old rule. -/
def detectContradictionsLoop (newRuleId : String) (newRule : ExtractedStyleRule)
    (extractionId strategy : String) (rows : List Row) (st : St) : St :=
  rows.foldl (fun st row =>
    if detectSimpleContradiction newRule.rule row.rule newRule.temporalMarker then
      let st := qContradicts newRuleId row.ruleId newRule.rule row.rule
        extractionId strategy st
      if row.strict && strategy ≠ "user-confirmation" then qMarkPending newRuleId st
      else if strategy = "most-recent-wins" then qDeactivate row.ruleId st
      else st
    else st) st

/-- Translation of detectAndRecordContradictions (lines 577-647). This
write-path variant imports runQuery from the graphdb variant that exports
getGraphDBConfig (staged inside docs/expanse-playtest-guide.md, lines
728-825); that runQuery returns `await session.run(...)` — the raw neo4j
result — or null on an OPTIONAL-mode failure. The guard on line 591,
`if (!result || !result.records) return`, therefore only filters the null
result: on a live result the records array exists (it is truthy even when
empty) and the loop over it (lines 593-646, detectContradictionsLoop
above) runs. The store-up path modelled here always takes the loop. -/
def detectAndRecordContradictions (userId newRuleId : String)
    (newRule : ExtractedStyleRule) (extractionId strategy : String) (st : St) :
    St :=
  let result : Option (List Row) := some (existingActiveRulesQ userId newRule.scope st)
  let st := tick st
  match result with
  | none => st
  | some records =>
      detectContradictionsLoop newRuleId newRule extractionId strategy records st

/-- MERGE (sr:StyleRule {ruleId}) SET sr.rule, sr.scope, sr.temporalMarker,
sr.since = datetime(), sr.active = true, sr.confidence, sr.strict WITH sr
MATCH (u:User {userId}) MERGE (u)-[:PREFERS {since: datetime(), scope,
temporalMarker}]->(sr) WITH sr MATCH (e:Extraction {extractionId})
MERGE (e)-[:CREATED]->(sr)  (lines 543-568). -/
def qInsertRule (ruleId ruleText scope temporalMarker : String)
    (confidence : ℚ) (strict : Bool) (userId extractionId : String) (st : St) :
    St :=
  let now := st.clock
  let node : Rule :=
    { ruleId := ruleId, rule := ruleText, scope := scope,
      temporalMarker := temporalMarker, since := now, active := true,
      confidence := confidence, strict := strict, pendingConfirmation := false }
  let styleRules :=
    if st.styleRules.any (fun r => r.ruleId = ruleId) then
      st.styleRules.map (fun r =>
        if r.ruleId = ruleId then
          { r with rule := ruleText, scope := scope,
                   temporalMarker := temporalMarker, since := now,
                   active := true, confidence := confidence, strict := strict }
        else r)
    else st.styleRules ++ [node]
  let st := { st with styleRules := styleRules }
  let pe := Edge.prefers userId ruleId now scope temporalMarker
  let st : St :=
    if st.users.contains userId then
      let st := { st with edges := addEdge st.edges pe }
      if st.extractions.any (fun e => e.extractionId = extractionId) then
        { st with edges := addEdge st.edges (Edge.createdRule extractionId ruleId) }
      else st
    else st
  tick st

/-- Translation of writeExtractionToGraph (lines 453-570). The
contradiction strategy comes from getGraphDBConfig, whose module (the
graphdb variant of this write path) is not among the repository files; it
is passed as a parameter here. -/
def writeExtractionToGraph (params : WriteToGraphParams)
    (extraction : ExtractionResult) (strategy : String) (st : St) : St :=
  let (extractionId, st) := freshUUID st
  let st := qExtraction extractionId extraction.rawSnippet st
  let st := qLinkSession extractionId params.sessionId st
  let st :=
    match params.artifactId with
    | some a => qLinkArtifact extractionId a st
    | none => st
  let st := extraction.entities.foldl (fun st ent =>
    let st := qUpsertConcept ent.name extractionId st
    match params.artifactId with
    | some a => qMentions a ent.name st
    | none => st) st
  let st := extraction.relations.foldl (fun st rel =>
    qRelation rel.source rel.target rel.type extractionId st) st
  extraction.styleRules.foldl (fun st rule =>
    let (ruleId, st) := freshUUID st
    let st := detectAndRecordContradictions params.userId ruleId rule
      extractionId strategy st
    qInsertRule ruleId rule.rule rule.scope rule.temporalMarker
      (rule.confidence.getD (1 / 2)) (rule.strict.getD false)
      params.userId extractionId st) st

/-- Translation of extractAndWriteToGraph (lines 276-300), modelled on the
store-up path (the OPTIONAL catch and REQUIRED rethrow wrap failures that
the claims about this variant do not exercise). -/
def extractAndWriteToGraph (mode : GraphRAGMode) (strategy : String)
    (params : WriteToGraphParams) (st : St) : St :=
  if mode = GraphRAGMode.OFF then st
  else
    let st := ensureSessionArtifactNodes params st
    let extraction := extractFromMessages params
    if extraction.entities.isEmpty && extraction.styleRules.isEmpty then st
    else writeExtractionToGraph params extraction strategy st

/-- Is a relationship a CONTRADICTS edge? -/
def isContradictsEdge : Edge → Bool
  | Edge.contradicts _ _ _ _ _ _ => true
  | _ => false

/-- The number of CONTRADICTS relationships in the graph. -/
def countContradicts (st : St) : Nat := st.edges.countP isContradictsEdge

/-- The StyleRule node holding a given rule text, if any. -/
def findRuleByText (st : St) (txt : String) : Option Rule :=
  st.styleRules.find? (fun r => r.rule = txt)

end V2

namespace GraphDB

/-- The module-level driver state of graphdb.ts: _driver (connected),
_driverInitAttempted, and a count of connection attempts actually issued
to the store (each `neo4j.driver` + `verifyConnectivity` round). -/
structure DriverState where
  connected : Bool
  initAttempted : Bool
  attempts : Nat
deriving DecidableEq

/-- The driver state at process start. -/
def initial : DriverState :=
  { connected := false, initAttempted := false, attempts := 0 }

/-- The environment of one run: the configured mode and whether the store
answers connection attempts and queries. -/
structure Ctx where
  mode : GraphRAGMode
  connectOk : Bool
  queryOk : Bool
deriving DecidableEq

/-- Translation of getDriver (graphdb.ts lines 84-119). Returns whether a
driver handle is available; the state is returned in every case (a thrown
error in the source leaves the mutated module state behind). -/
def getDriver (ctx : Ctx) (d : DriverState) : DriverState × Except String Bool :=
  if ctx.mode = GraphRAGMode.OFF then (d, Except.ok false)
  else if d.initAttempted then (d, Except.ok d.connected)
  else
    let d := { d with initAttempted := true, attempts := d.attempts + 1 }
    if ctx.connectOk then ({ d with connected := true }, Except.ok true)
    else
      let d := { d with connected := false }
      if ctx.mode = GraphRAGMode.REQUIRED then
        (d, Except.error "REQUIRED mode: Neo4j connection failed")
      else (d, Except.ok false)

/-- Translation of runQuery (graphdb.ts lines 125-150) over an abstract
graph type γ: the query effect maps the graph to the new graph and the
returned rows. A null driver yields null; a query failure yields null in
OPTIONAL mode and an error in REQUIRED mode. -/
def runQuery {γ ρ : Type} (ctx : Ctx) (eff : γ → γ × List ρ)
    (st : DriverState × γ) : (DriverState × γ) × Except String (Option (List ρ)) :=
  let (d, g) := st
  match getDriver ctx d with
  | (d, Except.error e) => ((d, g), Except.error e)
  | (d, Except.ok false) => ((d, g), Except.ok none)
  | (d, Except.ok true) =>
      if ctx.queryOk then
        let (g, rows) := eff g
        ((d, g), Except.ok (some rows))
      else if ctx.mode = GraphRAGMode.REQUIRED then
        ((d, g), Except.error "Query failed")
      else ((d, g), Except.ok none)

/-- Translation of runWriteQuery (graphdb.ts lines 155-183): identical to
runQuery up to the session access mode, which the model does not
distinguish. -/
def runWriteQuery {γ ρ : Type} (ctx : Ctx) (eff : γ → γ × List ρ)
    (st : DriverState × γ) : (DriverState × γ) × Except String (Option (List ρ)) :=
  runQuery ctx eff st

/-- Translation of closeDriver (graphdb.ts lines 188-194): the reset runs
only under `if (_driver)`, so a null driver leaves _driverInitAttempted
set. -/
def closeDriver (d : DriverState) : DriverState :=
  if d.connected then { d with connected := false, initAttempted := false }
  else d

end GraphDB

namespace V1

/-- graphdb.ts ExtractionRecord (the createdAt the caller supplies is an
ISO string). -/
structure ExtractionRecord where
  extractionId : String
  createdAt : String
  method : String
  model : Option String
  rawSnippet : Option String
  sourceSpan : Option (Nat × Nat)
deriving DecidableEq

/-- graphrag-write.ts (first variant) ExtractedTriple. -/
structure ExtractedTriple where
  subject : String
  predicate : String
  object : String
  properties : List (String × String)
deriving DecidableEq

/-- graphrag-write.ts (first variant) ExtractedStyleRule. -/
structure ExtractedStyleRule where
  id : String
  category : String
  content : String
  scope : String
  temporalMarker : String
deriving DecidableEq

/-- graphrag-write.ts (first variant) WritePathInput. -/
structure WritePathInput where
  userId : String
  sessionId : Option String
  artifactId : Option String
  entities : List String
  triples : List ExtractedTriple
  styleRules : List ExtractedStyleRule
  extraction : ExtractionRecord
deriving DecidableEq

/-- Concept node of the first variant (upsertConcept sets createdAt and
updatedAt on create, updatedAt on match). -/
structure ConceptNode where
  name : String
  createdAt : Nat
  updatedAt : Nat
deriving DecidableEq

/-- StyleRule node of the first variant (ON CREATE sets category, content,
scope, temporalMarker, since, createdAt; ON MATCH sets content,
temporalMarker, updatedAt). -/
structure RuleNode where
  id : String
  category : String
  content : String
  scope : String
  temporalMarker : String
  since : Nat
  createdAt : Nat
  updatedAt : Option Nat
deriving DecidableEq

/-- Extraction node of the first variant. -/
structure ExtractionNode where
  extractionId : String
  createdAt : String
  method : String
  model : Option String
  rawSnippet : Option String
deriving DecidableEq

/-- The relationships the first write-path variant creates; each
constructor carries exactly the properties of its MERGE pattern and SET
clauses. -/
inductive Edge where
  | extractedFrom (extractionId sessionId : String)
  | extractedFromArtifact (extractionId artifactId : String)
  | createdConcept (extractionId name : String)
  | createdRule (extractionId ruleId : String)
  | asserted (extractionId name : String)
  | relatedTo (subject object predicate : String) (createdAt : Nat)
      (properties : List (String × String))
  | prefers (userId ruleId : String) (since : Nat) (scope temporalMarker : String)
  | contradicts (newRuleId oldRuleId reason : String) (createdAt : Nat)
      (extractionId : String)
deriving DecidableEq

/-- The graph reached by the first write-path variant. The write path never
creates User nodes (its queries MATCH them), so users are part of the
initial state. -/
structure Graph where
  clock : Nat
  users : List String
  sessions : List String
  artifacts : List String
  extractions : List ExtractionNode
  concepts : List ConceptNode
  styleRules : List RuleNode
  edges : List Edge
deriving DecidableEq

/-- A row of the contradiction-check query: existingId, existingContent. -/
abbrev Row := String × String

/-- The process state: driver module state plus graph. -/
abbrev St := GraphDB.DriverState × Graph

/-- MERGE of a relationship whose pattern lists all its properties. -/
def addEdge (edges : List Edge) (e : Edge) : List Edge :=
  if e ∈ edges then edges else edges ++ [e]

/-- One executed query advances the datetime() clock. -/
def tick (g : Graph) : Graph := { g with clock := g.clock + 1 }

/-- The single (dynamically assembled) query of createExtractionNode
(lines 94-135): MERGE the Extraction node by extractionId with ON CREATE
SET of its properties, then, per present id, MERGE the Session or Artifact
node and the EXTRACTED_FROM / EXTRACTED_FROM_ARTIFACT relationship. -/
def createExtractionNodeQ (x : ExtractionRecord)
    (sessionId artifactId : Option String) (g : Graph) : Graph × List Row :=
  let g :=
    if g.extractions.any (fun e => e.extractionId = x.extractionId) then g
    else { g with extractions := g.extractions ++
      [{ extractionId := x.extractionId, createdAt := x.createdAt,
         method := x.method, model := x.model, rawSnippet := x.rawSnippet }] }
  let g :=
    match sessionId with
    | some s =>
        let g := if s ∈ g.sessions then g else { g with sessions := g.sessions ++ [s] }
        { g with edges := addEdge g.edges (Edge.extractedFrom x.extractionId s) }
    | none => g
  let g :=
    match artifactId with
    | some a =>
        let g := if a ∈ g.artifacts then g else { g with artifacts := g.artifacts ++ [a] }
        { g with edges := addEdge g.edges (Edge.extractedFromArtifact x.extractionId a) }
    | none => g
  (tick g, [])

/-- The query of upsertConcept (lines 141-148): MERGE Concept by name with
create/match datetime updates, then MATCH the Extraction and MERGE the
CREATED relationship (a failed MATCH cuts the merge). -/
def upsertConceptQ (name extractionId : String) (g : Graph) : Graph × List Row :=
  let now := g.clock
  let concepts :=
    if g.concepts.any (fun c => c.name = name) then
      g.concepts.map (fun c => if c.name = name then { c with updatedAt := now } else c)
    else g.concepts ++ [{ name := name, createdAt := now, updatedAt := now }]
  let g := { g with concepts := concepts }
  let g :=
    if g.extractions.any (fun e => e.extractionId = extractionId) then
      { g with edges := addEdge g.edges (Edge.createdConcept extractionId name) }
    else g
  (tick g, [])

/-- The query of upsertRelation (lines 157-168): MERGE both Concepts (ON
CREATE SET dates only), MERGE the RELATED_TO relationship keyed on the
predicate property (createdAt on create, properties overwritten), then
MATCH the Extraction and MERGE (e)-[:ASSERTED]->(s) to the subject. -/
def upsertRelationQ (subject predicate object : String)
    (properties : List (String × String)) (extractionId : String) (g : Graph) :
    Graph × List Row :=
  let now := g.clock
  let addConcept (cs : List ConceptNode) (n : String) :=
    if cs.any (fun c => c.name = n) then cs
    else cs ++ [{ name := n, createdAt := now, updatedAt := now }]
  let g := { g with concepts := addConcept (addConcept g.concepts subject) object }
  let edges :=
    if g.edges.any (fun e =>
        match e with
        | Edge.relatedTo s o p _ _ => s = subject && o = object && p = predicate
        | _ => false) then
      g.edges.map (fun e =>
        match e with
        | Edge.relatedTo s o p c _ =>
            if s = subject && o = object && p = predicate then
              Edge.relatedTo s o p c properties
            else e
        | _ => e)
    else g.edges ++ [Edge.relatedTo subject object predicate now properties]
  let g := { g with edges := edges }
  let g :=
    if g.extractions.any (fun e => e.extractionId = extractionId) then
      { g with edges := addEdge g.edges (Edge.asserted extractionId subject) }
    else g
  (tick g, [])

/-- The contradiction-check query of upsertStyleRule (lines 184-192):
MATCH (u:User {id})-[p:PREFERS]->(existing:StyleRule) WHERE category,
scope, temporalMarker = 'current' and a different id, RETURN id and
content, LIMIT 5. One row per matching PREFERS relationship. -/
def contradictionCheckQ (userId category scope ruleId : String) (g : Graph) :
    Graph × List Row :=
  let rows :=
    if g.users.contains userId then
      (((g.edges.filterMap (fun e =>
          match e with
          | Edge.prefers u r _ _ _ => if u = userId then some r else none
          | _ => none)).filterMap (fun rid =>
        (g.styleRules.find? (fun r => r.id = rid)).bind (fun r =>
          if r.category = category && r.scope = scope &&
              r.temporalMarker = "current" && r.id ≠ ruleId then
            some (r.id, r.content)
          else none))).take 5)
    else []
  (tick g, rows)

/-- The upsert query of upsertStyleRule (lines 202-221): MERGE the
StyleRule by id (ON CREATE sets all fields and since/createdAt, ON MATCH
sets content, temporalMarker, updatedAt), then MATCH the User and MERGE
the PREFERS relationship whose pattern carries since: datetime(), scope
and temporalMarker, then MATCH the Extraction and MERGE CREATED (each
failed MATCH cuts the rest). -/
def upsertRuleQ (userId : String) (rule : ExtractedStyleRule)
    (extractionId : String) (g : Graph) : Graph × List Row :=
  let now := g.clock
  let styleRules :=
    if g.styleRules.any (fun r => r.id = rule.id) then
      g.styleRules.map (fun r =>
        if r.id = rule.id then
          { r with content := rule.content, temporalMarker := rule.temporalMarker,
                   updatedAt := some now }
        else r)
    else g.styleRules ++
      [{ id := rule.id, category := rule.category, content := rule.content,
         scope := rule.scope, temporalMarker := rule.temporalMarker,
         since := now, createdAt := now, updatedAt := none }]
  let g := { g with styleRules := styleRules }
  let pe := Edge.prefers userId rule.id now rule.scope rule.temporalMarker
  let g : Graph :=
    if g.users.contains userId then
      let g := { g with edges := addEdge g.edges pe }
      if g.extractions.any (fun e => e.extractionId = extractionId) then
        { g with edges := addEdge g.edges (Edge.createdRule extractionId rule.id) }
      else g
    else g
  (tick g, [])

/-- The contradiction-recording query of upsertStyleRule (lines 236-244):
MATCH both StyleRules, MERGE the CONTRADICTS relationship whose pattern
carries the fixed reason, createdAt: datetime() and the extraction id. -/
def contradictEdgeQ (newRuleId existingId extractionId : String) (g : Graph) :
    Graph × List Row :=
  let now := g.clock
  let ce := Edge.contradicts newRuleId existingId
    "Same category and scope, newer rule" now extractionId
  let g : Graph :=
    if g.styleRules.any (fun r => r.id = newRuleId) &&
        g.styleRules.any (fun r => r.id = existingId) then
      { g with edges := addEdge g.edges ce }
    else g
  (tick g, [])

/-- Sequencing of the void write helpers: stop at the first error, keep the
state reached so far. -/
def bindE (step : St × Except String Unit) (f : St → St × Except String Unit) :
    St × Except String Unit :=
  match step with
  | (st, Except.error e) => (st, Except.error e)
  | (st, Except.ok _) => f st

/-- Translation of createExtractionNode (lines 94-135). -/
def createExtractionNode (ctx : GraphDB.Ctx) (x : ExtractionRecord)
    (sessionId artifactId : Option String) (st : St) : St × Except String Unit :=
  let (st, r) := GraphDB.runWriteQuery ctx (createExtractionNodeQ x sessionId artifactId) st
  (st, r.map (fun _ => ()))

/-- Translation of upsertConcept (lines 137-150); the name is lowercased
in the parameter build. -/
def upsertConcept (ctx : GraphDB.Ctx) (name extractionId : String) (st : St) :
    St × Except String Unit :=
  let (st, r) := GraphDB.runWriteQuery ctx (upsertConceptQ (toLowerStr name) extractionId) st
  (st, r.map (fun _ => ()))

/-- Translation of upsertRelation (lines 152-176); subject and object are
lowercased in the parameter build, the predicate is not. -/
def upsertRelation (ctx : GraphDB.Ctx) (triple : ExtractedTriple)
    (extractionId : String) (st : St) : St × Except String Unit :=
  let (st, r) := GraphDB.runWriteQuery ctx
    (upsertRelationQ (toLowerStr triple.subject) triple.predicate
      (toLowerStr triple.object) triple.properties extractionId) st
  (st, r.map (fun _ => ()))

/-- Translation of upsertStyleRule (lines 178-252): the contradiction
check runs first, then the rule upsert, then one CONTRADICTS merge per
returned row (skipped when the check returned null in OPTIONAL mode). -/
def upsertStyleRule (ctx : GraphDB.Ctx) (userId : String)
    (rule : ExtractedStyleRule) (extractionId : String) (st : St) :
    St × Except String Unit :=
  let (st, r1) := GraphDB.runWriteQuery ctx
    (contradictionCheckQ userId rule.category rule.scope rule.id) st
  match r1 with
  | Except.error e => (st, Except.error e)
  | Except.ok existingRules =>
      let (st, r2) := GraphDB.runWriteQuery ctx (upsertRuleQ userId rule extractionId) st
      match r2 with
      | Except.error e => (st, Except.error e)
      | Except.ok _ =>
          match existingRules with
          | none => (st, Except.ok ())
          | some rows =>
              rows.foldl (fun acc row =>
                bindE acc (fun st =>
                  let (st, r) := GraphDB.runWriteQuery ctx
                    (contradictEdgeQ rule.id row.1 extractionId) st
                  (st, r.map (fun _ => ())))) (st, Except.ok ())

/-- Translation of writeToGraph (lines 53-88): OFF returns false before any
store call; otherwise the helpers run in order inside the try block, the
results of their queries are never inspected, and the catch returns false
in OPTIONAL mode and rethrows in REQUIRED mode. In OPTIONAL mode no helper
ever throws (runWriteQuery converts failures to null), so the body always
reaches `return true`. -/
def writeToGraph (ctx : GraphDB.Ctx) (input : WritePathInput) (st : St) :
    St × Except String Bool :=
  if ctx.mode = GraphRAGMode.OFF then (st, Except.ok false)
  else
    let body :=
      bindE (createExtractionNode ctx input.extraction input.sessionId
        input.artifactId st) (fun st =>
      bindE (input.entities.foldl (fun acc ent =>
          bindE acc (fun st => upsertConcept ctx ent input.extraction.extractionId st))
        (st, Except.ok ())) (fun st =>
      bindE (input.triples.foldl (fun acc triple =>
          bindE acc (fun st => upsertRelation ctx triple input.extraction.extractionId st))
        (st, Except.ok ())) (fun st =>
      input.styleRules.foldl (fun acc rule =>
          bindE acc (fun st =>
            upsertStyleRule ctx input.userId rule input.extraction.extractionId st))
        (st, Except.ok ()))))
    match body with
    | (st, Except.ok _) => (st, Except.ok true)
    | (st, Except.error e) =>
        if ctx.mode = GraphRAGMode.REQUIRED then
          (st, Except.error ("Write path failed: " ++ e))
        else (st, Except.ok false)

/-- The node counts of the graph, by kind. -/
def nodeCounts (g : Graph) : Nat × Nat × Nat × Nat × Nat × Nat :=
  (g.users.length, g.sessions.length, g.artifacts.length,
   g.extractions.length, g.concepts.length, g.styleRules.length)

/-- Is a relationship a PREFERS edge? -/
def isPrefersEdge : Edge → Bool
  | Edge.prefers _ _ _ _ _ => true
  | _ => false

/-- The number of PREFERS relationships. -/
def countPrefers (g : Graph) : Nat := g.edges.countP isPrefersEdge

/-- Is a relationship a CONTRADICTS edge? -/
def isContradictsEdge : Edge → Bool
  | Edge.contradicts _ _ _ _ _ => true
  | _ => false

/-- The number of CONTRADICTS relationships. -/
def countContradicts (g : Graph) : Nat := g.edges.countP isContradictsEdge

/-- Does a CREATED or ASSERTED relationship point at the named Concept? -/
def hasProvenance (g : Graph) (name : String) : Bool :=
  g.edges.any (fun e =>
    match e with
    | Edge.createdConcept _ n => n = name
    | Edge.asserted _ n => n = name
    | _ => false)

/-- The empty graph with one pre-existing User node. -/
def graphWithUser (userId : String) : Graph :=
  { clock := 0, users := [userId], sessions := [], artifacts := [],
    extractions := [], concepts := [], styleRules := [], edges := [] }

end V1

namespace Agents

/-- Translation of getGraphContextForGeneration
(apps/agents/src/lib/graphrag-context.ts lines 16-52). The call into
buildGraphContext (module graphrag-read, which is not among the
repository files) together with the prompt-text assembly feeding it is
the `build` parameter; the formatter is the `fmt` parameter. OFF returns
the null context and empty prompt before any call; a throw out of the
build is rethrown in REQUIRED mode and becomes the null context in
OPTIONAL mode. -/
def getGraphContextForGeneration {α : Type} (mode : GraphRAGMode)
    (build : Except String (Option α)) (fmt : Option α → String) :
    Except String (Option α × String) :=
  if mode = GraphRAGMode.OFF then Except.ok (none, "")
  else
    match build with
    | Except.ok ctx => Except.ok (ctx, fmt ctx)
    | Except.error e =>
        if mode = GraphRAGMode.REQUIRED then Except.error e
        else Except.ok (none, "")

end Agents

/-- The content words of a rule text as claim C5 words them: lowercased
words of length greater than 3 that are not stop-words. -/
def contentWordsOf (s : String) : List String :=
  (wordsOf (toLowerStr s)).filter (fun w => w.length > 3 && !(COMMON_WORDS.contains w))

/-- Claim C5, clause (a): the new rule is negated and the content-word sets
of the two texts intersect. -/
def c5NegatedClause (n e m : String) : Prop :=
  m = "negated" ∧ ∃ w, w ∈ contentWordsOf n ∧ w ∈ contentWordsOf e

/-- Claim C5, clause (b): some opposing pair is split across the two
lowercased texts. -/
def c5PairClause (n e : String) : Prop :=
  ∃ a b, (a, b) ∈ opposingPairs ∧
    ((strIncl (toLowerStr n) a = true ∧ strIncl (toLowerStr e) b = true) ∨
     (strIncl (toLowerStr n) b = true ∧ strIncl (toLowerStr e) a = true))

-- ---------------------------------------------------------------------------
-- Concrete scenario data
-- ---------------------------------------------------------------------------

/-- Decidable equality of Except values, used to evaluate the concrete
claims below. -/
instance {ε α : Type} [DecidableEq ε] [DecidableEq α] : DecidableEq (Except ε α) :=
  fun a b =>
    match a, b with
    | Except.ok x, Except.ok y =>
        if h : x = y then Decidable.isTrue (by rw [h])
        else Decidable.isFalse (fun he => by cases he; exact h rfl)
    | Except.error x, Except.error y =>
        if h : x = y then Decidable.isTrue (by rw [h])
        else Decidable.isFalse (fun he => by cases he; exact h rfl)
    | Except.ok _, Except.error _ => Decidable.isFalse (fun he => by cases he)
    | Except.error _, Except.ok _ => Decidable.isFalse (fun he => by cases he)

/-- Is an Except value an error? -/
def isError {ε α : Type} (x : Except ε α) : Bool :=
  match x with
  | Except.error _ => true
  | Except.ok _ => false

/-- Mode OFF, store reachable. -/
def ctxOff : GraphDB.Ctx :=
  { mode := GraphRAGMode.OFF, connectOk := true, queryOk := true }

/-- Mode OPTIONAL, store reachable, queries succeed. -/
def ctxUp : GraphDB.Ctx :=
  { mode := GraphRAGMode.OPTIONAL, connectOk := true, queryOk := true }

/-- Mode OPTIONAL, connection attempts fail. -/
def ctxConnFail : GraphDB.Ctx :=
  { mode := GraphRAGMode.OPTIONAL, connectOk := false, queryOk := true }

/-- Mode OPTIONAL, connection succeeds, every query fails. -/
def ctxQueryFail : GraphDB.Ctx :=
  { mode := GraphRAGMode.OPTIONAL, connectOk := true, queryOk := false }

/-- Mode REQUIRED, connection attempts fail. -/
def ctxReqConnFail : GraphDB.Ctx :=
  { mode := GraphRAGMode.REQUIRED, connectOk := false, queryOk := true }

/-- Mode REQUIRED, connection succeeds, every query fails. -/
def ctxReqQueryFail : GraphDB.Ctx :=
  { mode := GraphRAGMode.REQUIRED, connectOk := true, queryOk := false }

/-- A fixed extraction record for the first-variant write inputs. -/
def ext1 : V1.ExtractionRecord :=
  { extractionId := "ext1", createdAt := "2024-01-01T00:00:00Z",
    method := "rule", model := none, rawSnippet := some "snippet",
    sourceSpan := none }

/-- Write input for claim C2: no listed entities, one triple whose object
concept does not exist yet. -/
def inputC2 : V1.WritePathInput :=
  { userId := "u", sessionId := some "sess", artifactId := none,
    entities := [],
    triples := [{ subject := "alpha", predicate := "rel", object := "beta",
                  properties := [] }],
    styleRules := [], extraction := ext1 }

/-- The graph after the C2 invocation (store up). -/
def graphC2 : V1.Graph :=
  ((V1.writeToGraph ctxUp inputC2 (GraphDB.initial, V1.graphWithUser "u")).1).2

/-- Write input for claims C1 and C6: one entity and one style rule under a
fixed extraction id. -/
def inputC6 : V1.WritePathInput :=
  { userId := "u", sessionId := some "sess", artifactId := none,
    entities := ["Widget"], triples := [],
    styleRules := [{ id := "r1", category := "tone", content := "use formal tone",
                     scope := "global", temporalMarker := "current" }],
    extraction := ext1 }

/-- The process state after the first C6 invocation. -/
def stC6a : V1.St := (V1.writeToGraph ctxUp inputC6 (GraphDB.initial, V1.graphWithUser "u")).1

/-- The process state after re-invoking C6 with the identical input. -/
def stC6b : V1.St := (V1.writeToGraph ctxUp inputC6 stC6a).1

/-- The driver state after a failed first connection attempt in OPTIONAL
mode. -/
def dFailed : GraphDB.DriverState := (GraphDB.getDriver ctxConnFail GraphDB.initial).1

/-- First write of the C3 scenario. -/
def paramsC3a : WriteToGraphParams :=
  { userId := "u", sessionId := "s", artifactId := none,
    messages := [⟨"user", "I always prefer concise responses."⟩],
    artifactContent := none }

/-- Second write of the C3 scenario. -/
def paramsC3b : WriteToGraphParams :=
  { userId := "u", sessionId := "s", artifactId := none,
    messages := [⟨"user", "I prefer detailed explanations."⟩],
    artifactContent := none }

/-- The graph after both C3 writes under most-recent-wins. -/
def stC3 : V2.St :=
  V2.extractAndWriteToGraph GraphRAGMode.OPTIONAL "most-recent-wins" paramsC3b
    (V2.extractAndWriteToGraph GraphRAGMode.OPTIONAL "most-recent-wins" paramsC3a
      V2.empty)

/-- The pre-existing strict active rule of the C4 scenario. -/
def ruleC4 : V2.Rule :=
  { ruleId := "r0", rule := "use formal tone everywhere", scope := "global",
    temporalMarker := "current", since := 0, active := true,
    confidence := 9 / 10, strict := true, pendingConfirmation := false }

/-- The initial graph of the C4 scenario: the user prefers the strict rule. -/
def stC4init : V2.St :=
  { V2.empty with users := ["u"], styleRules := [ruleC4],
                  edges := [V2.Edge.prefers "u" "r0" 0 "global" "current"] }

/-- The C4 write: a rule contradicting the strict one, configured strategy
user-confirmation. -/
def paramsC4 : WriteToGraphParams :=
  { userId := "u", sessionId := "s", artifactId := none,
    messages := [⟨"user", "I prefer casual tone in replies."⟩],
    artifactContent := none }

/-- The graph after the C4 write. -/
def stC4 : V2.St :=
  V2.extractAndWriteToGraph GraphRAGMode.OPTIONAL "user-confirmation" paramsC4
    stC4init

/-- The graph after the C4 write under the default most-recent-wins
strategy. -/
def stC4b : V2.St :=
  V2.extractAndWriteToGraph GraphRAGMode.OPTIONAL "most-recent-wins" paramsC4
    stC4init

/-- The C4 initial graph with the new rule already present as a StyleRule
node, to exhibit that the CONTRADICTS merge is live exactly when the new
rule exists when it runs. -/
def stC4pre : V2.St :=
  { stC4init with styleRules := stC4init.styleRules ++
      [{ ruleId := "uuid-0", rule := "I prefer casual tone in replies.",
         scope := "global", temporalMarker := "current", since := 0,
         active := true, confidence := 7 / 10, strict := false,
         pendingConfirmation := false }] }

/-- Input for the C7 counterexample: a single assistant-authored turn whose
text carries a capitalized word. -/
def paramsC7 : WriteToGraphParams :=
  { userId := "u", sessionId := "s", artifactId := none,
    messages := [⟨"assistant", "Atlas is mentioned."⟩],
    artifactContent := none }

/-- Input for the C8 counterexample: a single user turn whose unique
preference-phrase match trims to exactly 10 characters. -/
def paramsC8 : WriteToGraphParams :=
  { userId := "u", sessionId := "s", artifactId := none,
    messages := [⟨"user", "always ab."⟩], artifactContent := none }

/-- A rule node for the C10 witness graph. -/
def ruleW10 : V1.RuleNode :=
  { id := "r1", category := "tone", content := "use formal tone",
    scope := "global", temporalMarker := "current", since := 0, createdAt := 0,
    updatedAt := none }

/-- The C10 witness graph: one user preferring one current rule. -/
def gW10 : V1.Graph :=
  { clock := 0, users := ["u"], sessions := [], artifacts := [],
    extractions := [], concepts := [], styleRules := [ruleW10],
    edges := [V1.Edge.prefers "u" "r1" 0 "global" "current"] }

/-- A candidate style rule for the C10 witness. -/
def ruleIn10 : V1.ExtractedStyleRule :=
  { id := "rX", category := "tone", content := "I prefer casual style",
    scope := "global", temporalMarker := "current" }

/-- A read query with no effect and no rows, for the C9 witness. -/
def effNoop : V1.Graph → V1.Graph × List V1.Row := fun g => (g, [])

-- ---------------------------------------------------------------------------
-- Helper lemmas
-- ---------------------------------------------------------------------------

namespace V1

theorem countP_addEdge_le (l : List Edge) (e : Edge) :
    (addEdge l e).countP isContradictsEdge ≤ l.countP isContradictsEdge + 1 := by
  unfold addEdge
  split
  · exact Nat.le_add_right _ _
  · rw [List.countP_append]
    simp [List.countP_cons]
    split <;> omega

theorem countP_addEdge_eq (l : List Edge) (e : Edge)
    (he : isContradictsEdge e = false) :
    (addEdge l e).countP isContradictsEdge = l.countP isContradictsEdge := by
  unfold addEdge
  split
  · rfl
  · rw [List.countP_append]
    simp [List.countP_cons, he]

theorem cc_checkQ (userId category scope ruleId : String) (g : Graph) :
    countContradicts (contradictionCheckQ userId category scope ruleId g).1 =
      countContradicts g := rfl

theorem cc_upsertRuleQ (u : String) (r : ExtractedStyleRule) (eid : String)
    (g : Graph) :
    countContradicts (upsertRuleQ u r eid g).1 = countContradicts g := by
  unfold upsertRuleQ countContradicts tick
  dsimp only
  split
  · split
    · simp [countP_addEdge_eq, isContradictsEdge]
    · simp [countP_addEdge_eq, isContradictsEdge]
  · rfl

theorem cc_contradictEdgeQ (a b c : String) (g : Graph) :
    countContradicts (contradictEdgeQ a b c g).1 ≤ countContradicts g + 1 := by
  unfold contradictEdgeQ countContradicts tick
  dsimp only
  split
  · exact countP_addEdge_le _ _
  · exact Nat.le_add_right _ _

theorem cc_runWriteQuery {k : Nat} (ctx : GraphDB.Ctx)
    (eff : Graph → Graph × List Row) (st st' : St)
    (r : Except String (Option (List Row)))
    (heff : ∀ g, countContradicts (eff g).1 ≤ countContradicts g + k)
    (h : GraphDB.runWriteQuery ctx eff st = (st', r)) :
    countContradicts st'.2 ≤ countContradicts st.2 + k := by
  obtain ⟨d, g⟩ := st
  unfold GraphDB.runWriteQuery GraphDB.runQuery at h
  dsimp only at h
  rcases hgd : GraphDB.getDriver ctx d with ⟨d2, rr⟩
  rw [hgd] at h
  rcases rr with e | b
  · dsimp only at h
    cases h
    exact Nat.le_add_right _ _
  · rcases b with _ | _
    · dsimp only at h
      cases h
      exact Nat.le_add_right _ _
    · dsimp only at h
      by_cases hq : ctx.queryOk = true
      · rw [if_pos hq] at h
        cases h
        exact heff g
      · rw [if_neg hq] at h
        split at h <;> (cases h; exact Nat.le_add_right _ _)

theorem rows_runWriteQuery (ctx : GraphDB.Ctx) (eff : Graph → Graph × List Row)
    (st st' : St) (rows : List Row)
    (h : GraphDB.runWriteQuery ctx eff st = (st', Except.ok (some rows))) :
    rows = (eff st.2).2 := by
  obtain ⟨d, g⟩ := st
  unfold GraphDB.runWriteQuery GraphDB.runQuery at h
  dsimp only at h
  rcases hgd : GraphDB.getDriver ctx d with ⟨d2, rr⟩
  rw [hgd] at h
  rcases rr with e | b
  · dsimp only at h
    cases h
  · rcases b with _ | _
    · dsimp only at h
      cases h
    · dsimp only at h
      by_cases hq : ctx.queryOk = true
      · rw [if_pos hq] at h
        cases h
        rfl
      · rw [if_neg hq] at h
        split at h <;> cases h

theorem checkQ_rows_le (userId category scope ruleId : String) (g : Graph) :
    (contradictionCheckQ userId category scope ruleId g).2.length ≤ 5 := by
  unfold contradictionCheckQ
  dsimp only
  split
  · rw [List.length_take]
    exact Nat.min_le_left _ _
  · simp

theorem fold_cc (f : Row → St → St × Except String Unit)
    (hf : ∀ row st0, countContradicts ((f row st0).1).2 ≤ countContradicts st0.2 + 1)
    (rows : List Row) :
    ∀ start : St × Except String Unit,
    countContradicts ((rows.foldl (fun acc row => bindE acc (f row)) start).1.2) ≤
      countContradicts start.1.2 + rows.length := by
  induction rows with
  | nil => intro start; simp
  | cons row rest ih =>
      intro start
      rw [List.foldl_cons]
      have hstep : countContradicts ((bindE start (f row)).1.2) ≤
          countContradicts start.1.2 + 1 := by
        rcases start with ⟨st0, r0⟩
        rcases r0 with e | u
        · exact Nat.le_add_right _ _
        · dsimp [bindE]
          exact hf row st0
      have hrest := ih (bindE start (f row))
      simp only [List.length_cons]
      omega

theorem cc_upsertStyleRule (ctx : GraphDB.Ctx) (u : String)
    (rule : ExtractedStyleRule) (eid : String) (st : St) :
    countContradicts ((upsertStyleRule ctx u rule eid st).1).2 ≤
      countContradicts st.2 + 5 := by
  unfold upsertStyleRule
  rcases hq1 : GraphDB.runWriteQuery ctx
    (contradictionCheckQ u rule.category rule.scope rule.id) st with ⟨st1, r1⟩
  dsimp only
  have h1 : countContradicts st1.2 ≤ countContradicts st.2 := by
    have := cc_runWriteQuery (k := 0) ctx _ st st1 r1
      (fun g => by simp [cc_checkQ]) hq1
    omega
  rcases r1 with e | rowsOpt
  · dsimp only
    omega
  · dsimp only
    rcases hq2 : GraphDB.runWriteQuery ctx (upsertRuleQ u rule eid) st1
      with ⟨st2, r2⟩
    dsimp only
    have h2 : countContradicts st2.2 ≤ countContradicts st1.2 := by
      have := cc_runWriteQuery (k := 0) ctx _ st1 st2 r2
        (fun g => by simp [cc_upsertRuleQ]) hq2
      omega
    rcases r2 with e | uu
    · dsimp only
      omega
    · dsimp only
      rcases rowsOpt with _ | rows
      · dsimp only
        omega
      · dsimp only
        have h4 : rows.length ≤ 5 := by
          have hr := rows_runWriteQuery ctx _ st st1 rows hq1
          rw [hr]
          exact checkQ_rows_le _ _ _ _ _
        refine le_trans (fold_cc _ ?_ rows (st2, Except.ok ())) ?_
        · intro row st0
          exact cc_runWriteQuery ctx _ st0 _ _
            (fun g => cc_contradictEdgeQ _ _ _ g) rfl
        · dsimp only
          omega

theorem checkQ_rows_mem (userId category scope ruleId : String) (g : Graph) :
    ∀ row ∈ (contradictionCheckQ userId category scope ruleId g).2,
      ∃ r ∈ g.styleRules, row = (r.id, r.content) ∧ r.category = category ∧
        r.scope = scope ∧ r.temporalMarker = "current" ∧ r.id ≠ ruleId ∧
        ∃ since sc tm, Edge.prefers userId r.id since sc tm ∈ g.edges := by
  intro row hrow
  unfold contradictionCheckQ at hrow
  dsimp only at hrow
  split at hrow
  · have hrow2 := List.take_subset 5 _ hrow
    rw [List.mem_filterMap] at hrow2
    obtain ⟨rid, hrid, hf2⟩ := hrow2
    rw [Option.bind_eq_some] at hf2
    obtain ⟨r, hfind, hif⟩ := hf2
    have hmem : r ∈ g.styleRules := List.mem_of_find?_eq_some hfind
    have hid : r.id = rid := by
      have := List.find?_some hfind
      simpa using this
    split at hif
    · next hcond =>
        have hrw : (r.id, r.content) = row := Option.some.inj hif
        simp only [Bool.and_eq_true, decide_eq_true_eq] at hcond
        obtain ⟨⟨⟨hc, hs⟩, ht⟩, hne⟩ := hcond
        rw [List.mem_filterMap] at hrid
        obtain ⟨e, he, hf1⟩ := hrid
        refine ⟨r, hmem, hrw.symm, hc, hs, ht, hne, ?_⟩
        cases e <;>
          simp only [Option.ite_none_right_eq_some, Option.some.injEq] at hf1
        case prefers uu rr since sc tm =>
          obtain ⟨hu, hrr⟩ := hf1
          subst hu
          refine ⟨since, sc, tm, ?_⟩
          rw [hid, ← hrr]
          exact he
        all_goals cases hf1
    · cases hif
  · simp at hrow

end V1

-- ---------------------------------------------------------------------------
-- Claim theorems
-- ---------------------------------------------------------------------------

/-- Claim C1. The three-mode failure contract, evaluated on the code: in
OFF mode no store call is issued, every read returns null and every write
returns false; in REQUIRED mode a connection or query failure raises on
both the read and the write paths; but in OPTIONAL mode with a connection
or query failure, while reads do return null without throwing, writeToGraph
returns TRUE, not false as the claim states: runWriteQuery converts the
failure into a null result that writeToGraph never inspects, so its try
block still reaches `return true`. -/
theorem c1_mode_contract :
    (∀ (eff : V1.Graph → V1.Graph × List V1.Row) (st : V1.St),
        GraphDB.runQuery ctxOff eff st = (st, Except.ok none)) ∧
    (∀ (input : V1.WritePathInput) (st : V1.St),
        V1.writeToGraph ctxOff input st = (st, Except.ok false)) ∧
    Agents.getGraphContextForGeneration (α := Unit) GraphRAGMode.OFF
      (Except.error "store down") (fun _ => "") = Except.ok (none, "") ∧
    (GraphDB.runQuery ctxConnFail (fun (g : V1.Graph) => (g, ([] : List V1.Row)))
        (GraphDB.initial, V1.graphWithUser "u")).2 = Except.ok none ∧
    (V1.writeToGraph ctxConnFail inputC6 (GraphDB.initial, V1.graphWithUser "u")).2 =
      Except.ok true ∧
    (GraphDB.runQuery ctxQueryFail (fun (g : V1.Graph) => (g, ([] : List V1.Row)))
        (GraphDB.initial, V1.graphWithUser "u")).2 = Except.ok none ∧
    (V1.writeToGraph ctxQueryFail inputC6 (GraphDB.initial, V1.graphWithUser "u")).2 =
      Except.ok true ∧
    Agents.getGraphContextForGeneration (α := Unit) GraphRAGMode.OPTIONAL
      (Except.error "store down") (fun _ => "") = Except.ok (none, "") ∧
    isError (GraphDB.runQuery ctxReqConnFail
        (fun (g : V1.Graph) => (g, ([] : List V1.Row)))
        (GraphDB.initial, V1.graphWithUser "u")).2 = true ∧
    isError (V1.writeToGraph ctxReqConnFail inputC6
        (GraphDB.initial, V1.graphWithUser "u")).2 = true ∧
    isError (V1.writeToGraph ctxReqQueryFail inputC6
        (GraphDB.initial, V1.graphWithUser "u")).2 = true ∧
    isError (Agents.getGraphContextForGeneration (α := Unit) GraphRAGMode.REQUIRED
        (Except.error "store down") (fun _ => "")) = true := by
  refine ⟨?_, ?_, by decide, by decide, by decide, by decide, by decide,
    by decide, by decide, by decide, by decide, by decide⟩
  · intro eff st
    obtain ⟨d, g⟩ := st
    rfl
  · intro input st
    rfl

/-- Claim C2. Provenance closure fails on the code: a write invocation with
a triple whose object concept is new creates that Concept node (here
"beta") with no CREATED or ASSERTED relationship pointing at it —
upsertRelation links the Extraction to the subject concept only. -/
theorem c2_orphan_object_concept :
    (V1.graphWithUser "u").concepts = [] ∧
    graphC2.concepts.any (fun c => c.name = "beta") = true ∧
    V1.hasProvenance graphC2 "beta" = false := by
  decide

/-- Claim C3. The most-recent-wins scenario, evaluated on the code: after
writing `I always prefer concise responses.` and then `I prefer detailed
explanations.` in the same scope, no CONTRADICTS relationship exists and
the first rule is still active with temporalMarker current (the claim
expects active=false, temporalMarker=past and one CONTRADICTS edge). The
detection loop does run, but detectSimpleContradiction returns false for
this pair: the new rule is not negated, and the opposing-keyword table has
verbose/concise and detailed/brief but no pair split across `detailed` and
`concise` — so neither the edge merge nor the resolution executes. -/
theorem c3_scenario_no_contradiction_recorded :
    detectSimpleContradiction "I prefer detailed explanations."
      "always prefer concise responses." "current" = false ∧
    V2.countContradicts stC3 = 0 ∧
    (V2.findRuleByText stC3 "always prefer concise responses.").map
      (fun r => (r.active, r.temporalMarker)) = some (true, "current") ∧
    (V2.findRuleByText stC3 "I prefer detailed explanations.").map
      (fun r => (r.active, r.temporalMarker)) = some (true, "current") := by
  decide

/-- Claim C4. The strict-override guard, evaluated on the code: the
existing rule is strict and active and the detector flags the new rule as
contradicting it (formal/casual), yet after the insertion the new rule is
active with no pendingConfirmation flag and no CONTRADICTS edge exists —
under the user-confirmation strategy because the guard explicitly skips it
(`existingStrict && strategy !== "user-confirmation"`), and under every
other strategy (most-recent-wins shown) because the pending-mark and the
CONTRADICTS merge run before the new rule is inserted, so their MATCH on
its ruleId binds nothing and the subsequent insert sets active=true. The
last conjunct shows the same merge is live once the new rule exists. -/
theorem c4_strict_guard_never_fires :
    detectSimpleContradiction "I prefer casual tone in replies."
      "use formal tone everywhere" "current" = true ∧
    ruleC4.strict = true ∧ ruleC4.active = true ∧
    V2.countContradicts stC4 = 0 ∧
    (V2.findRuleByText stC4 "I prefer casual tone in replies.").map
      (fun r => (r.active, r.pendingConfirmation)) = some (true, false) ∧
    (V2.findRuleByText stC4 "use formal tone everywhere").map (fun r => r.active) =
      some true ∧
    V2.countContradicts stC4b = 0 ∧
    (V2.findRuleByText stC4b "I prefer casual tone in replies.").map
      (fun r => (r.active, r.pendingConfirmation)) = some (true, false) ∧
    (V2.findRuleByText stC4b "use formal tone everywhere").map
      (fun r => (r.active, r.temporalMarker)) = some (true, "current") ∧
    V2.countContradicts (V2.qContradicts "uuid-0" "r0"
      "I prefer casual tone in replies." "use formal tone everywhere"
      "ext" "most-recent-wins" stC4init) = 0 ∧
    V2.countContradicts (V2.qContradicts "uuid-0" "r0"
      "I prefer casual tone in replies." "use formal tone everywhere"
      "ext" "most-recent-wins" stC4pre) = 1 := by
  decide

/-- Claim C6. Idempotence fails on the code: re-invoking writeToGraph with
an identical (extractionId, entity set, rule set) creates no duplicate
node, but it does create a second PREFERS relationship, because the MERGE
pattern carries since: datetime() and the fresh timestamp matches no
existing edge. -/
theorem c6_reinvocation_duplicates_prefers_edge :
    V1.nodeCounts stC6a.2 = V1.nodeCounts stC6b.2 ∧
    V1.countPrefers stC6a.2 = 1 ∧
    V1.countPrefers stC6b.2 = 2 ∧
    stC6b.2.edges.length = stC6a.2.edges.length + 1 := by
  decide

/-- Claim C7, counterexample: an assistant-authored turn containing the
capitalized word Atlas — which passes the entity filters, as its presence
among the candidates of the same text shows — contributes nothing: the
extractor skips every turn whose role is not human or user, so the claim
that both roles contribute entity candidates fails at this input. -/
theorem c7_counterexample :
    "atlas" ∈ entityCandidatesOf "Atlas is mentioned." ∧
    (extractFromMessages paramsC7).entities = [] ∧
    (extractFromMessages paramsC7).styleRules = [] := by
  decide

/-- Claim C8, counterexample: `always ab.` is a preference-phrase match
whose trimmed length is exactly 10, and it is dropped — the source check is
length > 10, not ≥ 10 as the claim states. -/
theorem c8_counterexample :
    preferenceCandidatesOf "always ab." = ["always ab."] ∧
    (trimStr "always ab.").length = 10 ∧
    styleRulesOfContent "always ab." = [] ∧
    (extractFromMessages paramsC8).styleRules = [] := by
  decide

/-- Claim C9, counterexample: after a failed first connection attempt in
OPTIONAL mode the init flag is set and the driver is null; a later write
then returns TRUE (the claim says every later write returns false), and
closeDriver leaves the initialization flag set (the claim says closeDriver
resets it): its reset is guarded by `if (_driver)` and the driver is null. -/
theorem c9_counterexample :
    dFailed.initAttempted = true ∧
    dFailed.connected = false ∧
    (V1.writeToGraph ctxConnFail inputC6 (dFailed, V1.graphWithUser "u")).2 =
      Except.ok true ∧
    GraphDB.closeDriver dFailed = dFailed := by
  decide

/-- Claim C5. detectSimpleContradiction returns true exactly when (a) the
new rule is negated and the content-word sets (lowercased words longer
than 3 characters that are not stop-words) of the two texts intersect, or
(b) some pair of the fixed opposing-keyword table is split across the two
texts. -/
theorem c5_detect_simple_contradiction_iff (n e m : String) :
    detectSimpleContradiction n e m = true ↔
      (c5NegatedClause n e m ∨ c5PairClause n e) := by
  simp only [detectSimpleContradiction, c5NegatedClause, c5PairClause,
    contentWordsOf]
  by_cases hm : m = "negated" <;>
    simp [hm, List.any_eq_true, Prod.exists, List.length_pos_iff_exists_mem,
      List.mem_filter, List.elem_iff, and_assoc]
  constructor
  · rintro (⟨a, ha, hae, hl, hc⟩ | h)
    · exact Or.inl ⟨a, ha, hl, hc, hae, hl, hc⟩
    · exact Or.inr h
  · rintro (⟨w, hw, hl, hc, hwe, _, _⟩ | h)
    · exact Or.inl ⟨w, hw, hwe, hl, hc⟩
    · exact Or.inr h

/-- Claim C7, amended: turns whose role is neither human nor user
contribute nothing at all to the extraction — neither entity candidates
nor style rules; the extraction of any input equals the extraction of the
same input restricted to its human/user turns. -/
theorem c7_amended_user_turns_only (params : WriteToGraphParams) :
    extractFromMessages params =
      extractFromMessages { params with
        messages := params.messages.filter
          (fun m => m.role = "human" || m.role = "user") } := by
  simp [extractFromMessages, List.filter_filter]

/-- Claim C8, amended: a preference-phrase match is retained as a
style-rule candidate if and only if its trimmed length is strictly greater
than 10 and strictly less than 200 characters — a match of trimmed length
exactly 10 is dropped. -/
theorem c8_amended_retention_band (content t : String)
    (ht : t ∈ preferenceCandidatesOf content) :
    (∃ r ∈ styleRulesOfContent content, r.rule = t) ↔
      (10 < t.length ∧ t.length < 200) := by
  unfold styleRulesOfContent
  constructor
  · rintro ⟨r, hr, hrt⟩
    rw [List.mem_filterMap] at hr
    obtain ⟨t2, ht2, hft⟩ := hr
    by_cases hcond : (t2.length > 10 && t2.length < 200) = true
    · rw [if_pos hcond] at hft
      obtain rfl : _ = r := Option.some.inj hft
      obtain rfl : t2 = t := hrt
      simpa using hcond
    · rw [if_neg hcond] at hft
      cases hft
  · rintro ⟨h1, h2⟩
    refine ⟨{ rule := t, scope := "global", temporalMarker := temporalMarkerOf t,
              confidence := some (7 / 10), strict := none }, ?_, rfl⟩
    rw [List.mem_filterMap]
    refine ⟨t, ht, ?_⟩
    rw [if_pos (by simp [h1, h2])]

/-- Witness for claim C8's amended theorem: the match of the first C3 turn
is retained, and its length is in the open band. -/
theorem c8_amended_retention_band_witness :
    ("always prefer concise responses." ∈
      preferenceCandidatesOf "I always prefer concise responses.") ∧
    ((∃ r ∈ styleRulesOfContent "I always prefer concise responses.",
        r.rule = "always prefer concise responses.") ↔
      (10 < ("always prefer concise responses." : String).length ∧
        ("always prefer concise responses." : String).length < 200)) :=
  ⟨by decide, c8_amended_retention_band _ _ (by decide)⟩

/-- Claim C9, amended: once the first connection attempt has failed in
OPTIONAL mode, every later getDriver call returns null without contacting
the store, every later read returns null with the process state unchanged,
and every later write performs no store mutation — but writeToGraph
reports true, not false, and closeDriver leaves the initialization flag
set because its reset is guarded by a live driver. -/
theorem c9_memoized_degradation (ctx : GraphDB.Ctx) (d : GraphDB.DriverState)
    (g : V1.Graph) (eff : V1.Graph → V1.Graph × List V1.Row)
    (input : V1.WritePathInput)
    (h1 : ctx.mode = GraphRAGMode.OPTIONAL) (h2 : d.initAttempted = true)
    (h3 : d.connected = false) :
    GraphDB.getDriver ctx d = (d, Except.ok false) ∧
    GraphDB.runQuery ctx eff (d, g) = ((d, g), Except.ok none) ∧
    V1.writeToGraph ctx input (d, g) = ((d, g), Except.ok true) ∧
    GraphDB.closeDriver d = d := by
  have hget : GraphDB.getDriver ctx d = (d, Except.ok false) := by
    unfold GraphDB.getDriver
    rw [h1, h2]
    simp [h3]
  have hrun : ∀ (eff2 : V1.Graph → V1.Graph × List V1.Row),
      GraphDB.runQuery ctx eff2 (d, g) = ((d, g), Except.ok none) := by
    intro eff2
    simp [GraphDB.runQuery, hget]
  have hw : ∀ (eff2 : V1.Graph → V1.Graph × List V1.Row),
      GraphDB.runWriteQuery ctx eff2 (d, g) = ((d, g), Except.ok none) := by
    intro eff2
    exact hrun eff2
  have hfold : ∀ {β : Type} (f : β → V1.St → V1.St × Except String Unit)
      (l : List β), (∀ b, f b (d, g) = ((d, g), Except.ok ())) →
      l.foldl (fun acc b => V1.bindE acc (fun s => f b s)) ((d, g), Except.ok ()) =
        ((d, g), Except.ok ()) := by
    intro β f l hf
    induction l with
    | nil => rfl
    | cons b t ih =>
        rw [List.foldl_cons]
        have hb : V1.bindE ((d, g), Except.ok ()) (fun s => f b s) =
            ((d, g), Except.ok ()) := by
          simp [V1.bindE, hf b]
        rw [hb, ih]
  refine ⟨hget, hrun eff, ?_, ?_⟩
  · rw [V1.writeToGraph]
    rw [if_neg (by simp [h1])]
    have hcre : V1.createExtractionNode ctx input.extraction input.sessionId
        input.artifactId (d, g) = ((d, g), Except.ok ()) := by
      simp [V1.createExtractionNode, hw, Except.map]
    have hcon : ∀ ent, V1.upsertConcept ctx ent input.extraction.extractionId
        (d, g) = ((d, g), Except.ok ()) := by
      intro ent
      simp [V1.upsertConcept, hw, Except.map]
    have htri : ∀ t, V1.upsertRelation ctx t input.extraction.extractionId
        (d, g) = ((d, g), Except.ok ()) := by
      intro t
      simp [V1.upsertRelation, hw, Except.map]
    have hsty : ∀ r, V1.upsertStyleRule ctx input.userId r
        input.extraction.extractionId (d, g) = ((d, g), Except.ok ()) := by
      intro r
      simp [V1.upsertStyleRule, hw, Except.map]
    have bindE_ok : ∀ (st : V1.St) (f : V1.St → V1.St × Except String Unit),
        V1.bindE (st, Except.ok ()) f = f st := fun _ _ => rfl
    rw [hcre]
    simp only [bindE_ok]
    rw [hfold _ _ hcon]
    simp only [bindE_ok]
    rw [hfold _ _ htri]
    simp only [bindE_ok]
    rw [hfold _ _ hsty]
  · simp [GraphDB.closeDriver, h3]

/-- Witness for claim C9's amended theorem, applied at the state reached by
an actual failed first attempt. -/
theorem c9_memoized_degradation_witness :
    GraphDB.getDriver ctxConnFail dFailed = (dFailed, Except.ok false) ∧
    GraphDB.runQuery ctxConnFail effNoop (dFailed, V1.graphWithUser "u") =
      ((dFailed, V1.graphWithUser "u"), Except.ok none) ∧
    V1.writeToGraph ctxConnFail inputC6 (dFailed, V1.graphWithUser "u") =
      ((dFailed, V1.graphWithUser "u"), Except.ok true) ∧
    GraphDB.closeDriver dFailed = dFailed :=
  c9_memoized_degradation ctxConnFail dFailed (V1.graphWithUser "u") effNoop
    inputC6 rfl (by decide) (by decide)

/-- Claim C10. The contradiction check of upsertStyleRule returns at most 5
rows; every returned row is an existing rule of the same user (reached via
a PREFERS relationship) whose category and scope equal the candidate's,
whose temporalMarker is current and whose id differs from the candidate's;
and a single upsertStyleRule invocation records at most 5 new CONTRADICTS
relationships. -/
theorem c10_contradiction_check_bounded :
    (∀ (g : V1.Graph) (userId category scope ruleId : String),
        (V1.contradictionCheckQ userId category scope ruleId g).2.length ≤ 5) ∧
    (∀ (g : V1.Graph) (userId category scope ruleId : String),
        ∀ row ∈ (V1.contradictionCheckQ userId category scope ruleId g).2,
          ∃ r ∈ g.styleRules, row = (r.id, r.content) ∧ r.category = category ∧
            r.scope = scope ∧ r.temporalMarker = "current" ∧ r.id ≠ ruleId ∧
            ∃ since sc tm, V1.Edge.prefers userId r.id since sc tm ∈ g.edges) ∧
    (∀ (ctx : GraphDB.Ctx) (userId : String) (rule : V1.ExtractedStyleRule)
        (eid : String) (st : V1.St),
        V1.countContradicts ((V1.upsertStyleRule ctx userId rule eid st).1).2 ≤
          V1.countContradicts st.2 + 5) :=
  ⟨fun g userId category scope ruleId =>
      V1.checkQ_rows_le userId category scope ruleId g,
   fun g userId category scope ruleId =>
      V1.checkQ_rows_mem userId category scope ruleId g,
   fun ctx userId rule eid st => V1.cc_upsertStyleRule ctx userId rule eid st⟩

/-- Witness for claim C10, applied at a concrete graph holding one
matching rule. -/
theorem c10_contradiction_check_bounded_witness :
    (V1.contradictionCheckQ "u" "tone" "global" "rX" gW10).2.length ≤ 5 ∧
    (∃ r ∈ gW10.styleRules, ("r1", "use formal tone") = (r.id, r.content) ∧
      r.category = "tone" ∧ r.scope = "global" ∧ r.temporalMarker = "current" ∧
      r.id ≠ "rX" ∧ ∃ since sc tm,
        V1.Edge.prefers "u" r.id since sc tm ∈ gW10.edges) ∧
    V1.countContradicts
        ((V1.upsertStyleRule ctxUp "u" ruleIn10 "ext1"
          (GraphDB.initial, gW10)).1).2 ≤ V1.countContradicts gW10 + 5 :=
  ⟨c10_contradiction_check_bounded.1 gW10 "u" "tone" "global" "rX",
   c10_contradiction_check_bounded.2.1 gW10 "u" "tone" "global" "rX"
     ("r1", "use formal tone") (by decide),
   c10_contradiction_check_bounded.2.2 ctxUp "u" ruleIn10 "ext1"
     (GraphDB.initial, gW10)⟩

end OC
